import Mathlib

/-!
Verification of the trajectory reconstruction and MSD engine of
`brain_diffusion/Chad/msd.py` (functions `fillin2`, `MSD_iteration`,
`vectorized_MMSD_calcs`) against its natural-language specification.

Conventions of the embedding:
* a trajectory record (one row of the five used columns of the data
  array) is a `TRow` holding Track ID, frame, x, y, z;
* frame numbers and track ids are integers (`ℤ`), coordinates are
  exact rationals (`ℚ`);
* numpy masked arrays are lists of cells `(data, mask)`, where
  `ma.masked_equal(_, 0)` sets the mask on cells whose value is `0`;
* Python exceptions are modelled with `Except PyErr`.
-/

/-- One row of the five columns used by `fillin2` and `MSD_iteration`:
Track ID, frame, x, y, z (columns 0..4 of the data array). -/
structure TRow where
  tid : ℤ
  frame : ℤ
  x : ℚ
  y : ℚ
  z : ℚ
deriving DecidableEq, Repr, Inhabited

namespace Msd

/-- `min(data[:, 1])` : smallest frame number of the dataset (0 on the
empty dataset, which the source rejects by assertion). -/
def minFrame : List TRow → ℤ
  | [] => 0
  | r :: rs => rs.foldl (fun m s => min m s.frame) r.frame

/-- `max(data[:, 1])` : largest frame number of the dataset. -/
def maxFrame : List TRow → ℤ
  | [] => 0
  | r :: rs => rs.foldl (fun m s => max m s.frame) r.frame

/-- The assertions guarding `fillin2` (msd.py lines 57-60): the input is
a (structurally five-column) array, non-empty, and
`np.diff(data[:, 1]) == abs(np.diff(data[:, 1]))`, i.e. consecutive
frames are non-decreasing (equal consecutive frames pass the check). -/
def fillinValid (data : List TRow) : Bool :=
  !data.isEmpty
    && (data.zip data.tail).all fun pr => decide (pr.1.frame ≤ pr.2.frame)

/-- The loop of `fillin2` (msd.py lines 75-86).  `rem` is the number of
output rows still to produce, `num` the current output row index,
`new` the counter of iterations whose target frame was *below* the
candidate input frame.  Each produced row has frame `shape1 + num`
(column 1 was pre-filled with `np.linspace`) and copies columns
0 and 2..4 from `data[num - new - 1]`, where `new` has already been
updated by the branch of the current iteration. -/
def fillAux (data : List TRow) (shape1 : ℤ) : ℕ → ℕ → ℕ → List TRow
  | 0, _, _ => []
  | rem + 1, num, new =>
    let target : ℤ := shape1 + num
    let cand := data.getD (num - new - 1) default
    let new1 := if target = cand.frame then new
      else if target < cand.frame then new + 1
      else new
    let src := data.getD (num - new1 - 1) default
    { tid := src.tid, frame := target, x := src.x, y := src.y, z := src.z }
      :: fillAux data shape1 rem (num + 1) new1

/-- `fillin2(data)` (msd.py lines 62-88): allocate
`newshap = max(frames) + 1 - min(frames)` rows, set row 0 from
`data[0]`, overwrite the frame column with
`linspace(min, max, newshap)`, then run the carry loop for rows
1..newshap-1. -/
def fillin2 (data : List TRow) : List TRow :=
  let shape1 := minFrame data
  let shap := maxFrame data + 1
  let newshap := (shap - shape1).toNat
  let d0 := data.headD default
  { d0 with frame := shape1 } :: fillAux data shape1 (newshap - 1) 1 0

/-- `int(max(placeholder[:, 0]))` : largest (global) track id of the
concatenated dataset (msd.py line 186). -/
def maxId : List TRow → ℤ
  | [] => 0
  | r :: rs => rs.foldl (fun m s => max m s.tid) r.tid

/-- The particle ids visited by `for num in range(1, total1)`
(msd.py line 202, where at that point `total1 = total + 1`): the list
`1, 2, ..., total`. -/
def idList (total : ℕ) : List ℕ := (List.range total).map (· + 1)

/-- `np.where(particles == num)[0]` (msd.py line 204): the ascending
list of row indices whose track id is `num`. -/
def rowIdxs (rows : List TRow) (num : ℕ) : List ℕ :=
  (List.range rows.length).filter fun i => decide ((rows.getD i default).tid = (num : ℤ))

/-- `min1 = min(itindex)` : the smallest row index of particle `num`
(the head, since `rowIdxs` is ascending). -/
def min1 (rows : List TRow) (num : ℕ) : ℕ := (rowIdxs rows num).headD 0

/-- `max1 = max(itindex)` : the largest row index of particle `num`
(the last element, since `rowIdxs` is ascending). -/
def max1 (rows : List TRow) (num : ℕ) : ℕ := (rowIdxs rows num).getLastD 0

/-- `fixed[min1:max1+1, 0:5]` (msd.py line 212): the slice of rows from
the first to the last row index of particle `num`. -/
def sliceFor (rows : List TRow) (num : ℕ) : List TRow :=
  (rows.drop (min1 rows num)).take (max1 rows num + 1 - min1 rows num)

/-- The survival test of msd.py line 209: particle `num` is *dropped*
when `max1 - min1 < cutoff` and kept (allocated a column) otherwise.
Note the test compares row indices, not frame numbers. -/
def keeps (rows : List TRow) (cut : ℕ) (num : ℕ) : Bool :=
  decide (cut ≤ max1 rows num - min1 rows num)

/-- The column that `x[...] = holdplease[:, 2]` (msd.py line 213) writes
for a kept particle, as a full column of the `(frames+1)`-row matrix
`x`: zeros outside the row range `[holdplease[0,1], holdplease[-1,1]]`,
the filled trajectory values inside it. -/
def absColOf (frames : ℕ) (proj : TRow → ℚ) (hp : List TRow) : List ℚ :=
  let first := ((hp.headD default).frame).toNat
  List.replicate first 0 ++ hp.map proj
    ++ List.replicate (frames + 1 - (first + hp.length)) 0

/-- The column that `xs[...] = holdplease[:, 2]` (msd.py line 216)
writes for a kept particle: the filled trajectory values shifted to
start at row 0, zeros below. -/
def relColOf (frames : ℕ) (proj : TRow → ℚ) (hp : List TRow) : List ℚ :=
  hp.map proj ++ List.replicate (frames + 1 - hp.length) 0

/-- The loop `for num in range(1, total1)` of msd.py lines 202-217,
restricted to one of the four output matrices (the four matrices are
updated independently by the source loop).  The matrix is stored as a
list of columns; a kept particle writes its column at index
`num - nones - 1`, a dropped particle only increments `nones`. -/
def scatterLoop (rows : List TRow) (cut : ℕ) (colOf : List TRow → List ℚ) :
    ℕ → ℕ → ℕ → List (List ℚ) → ℕ × List (List ℚ)
  | 0, _, nones, mat => (nones, mat)
  | rem + 1, num, nones, mat =>
    if keeps rows cut num then
      scatterLoop rows cut colOf rem (num + 1) nones
        (mat.set (num - nones - 1) (colOf (fillin2 (sliceFor rows num))))
    else
      scatterLoop rows cut colOf rem (num + 1) (nones + 1) mat

/-- Result of the assembly: the surviving particle count `total1` and
the four frame-by-particle matrices (stored column-major), msd.py
lines 219-225. -/
structure MSDOut where
  total1 : ℕ
  xs_m : List (List ℚ)
  ys_m : List (List ℚ)
  x_m : List (List ℚ)
  y_m : List (List ℚ)
deriving DecidableEq, Repr

/-- The in-memory core of `MSD_iteration` (msd.py lines 183-225),
taking as input the concatenated, id-remapped and unit-converted
record set (`fixed`; loading, concatenation and id-remapping of the
per-video csv files, lines 155-193, are file I/O declared out of scope
by the specification).  `frames` is the largest frame number of the
dataset, `total = int(max(particles))`.  Returns `none` where the
source raises: when some id in `1..total` has no rows (`min()` of an
empty sequence) or a kept particle's slice fails the `fillin2`
assertions. -/
def msdCore (rows : List TRow) (cut : ℕ) : Option MSDOut :=
  let frames := (maxFrame rows).toNat
  let total := (maxId rows).toNat
  let ids := idList total
  if (ids.all fun num => !(rowIdxs rows num).isEmpty)
      && (ids.all fun num => !keeps rows cut num || fillinValid (sliceFor rows num)) then
    let initMat := List.replicate (total + 1) (List.replicate (frames + 1) (0 : ℚ))
    let resXs := scatterLoop rows cut (relColOf frames TRow.x) total 1 0 initMat
    let resYs := scatterLoop rows cut (relColOf frames TRow.y) total 1 0 initMat
    let resX := scatterLoop rows cut (absColOf frames TRow.x) total 1 0 initMat
    let resY := scatterLoop rows cut (absColOf frames TRow.y) total 1 0 initMat
    let total1 := total - resXs.1
    some { total1 := total1
           xs_m := resXs.2.take total1
           ys_m := resYs.2.take total1
           x_m := resX.2.take total1
           y_m := resY.2.take total1 }
  else
    none

/-! ## MSD statistics engine (`vectorized_MMSD_calcs`, msd.py 228-272) -/

/-- A cell of a numpy masked array: value and mask bit. -/
abbrev MCell := ℚ × Bool

/-- `ma.masked_equal(row, 0)` on one row: mask exactly the zero cells. -/
def maskEq0Row (r : List ℚ) : List MCell := r.map fun v => (v, decide (v = 0))

/-- `ma.masked_equal(m, 0)` (msd.py lines 234-238). -/
def maskEq0 (m : List (List ℚ)) : List (List MCell) := m.map maskEq0Row

/-- Elementwise subtraction of masked rows: data subtracts, masks or. -/
def msub (a b : List MCell) : List MCell :=
  List.zipWith (fun p q => (p.1 - q.1, p.2 || q.2)) a b

/-- Elementwise square of a masked row: mask unchanged. -/
def msq (a : List MCell) : List MCell := a.map fun p => (p.1 ^ 2, p.2)

/-- The masked mean of one column: the arithmetic mean of the unmasked
values, or a masked result when every cell is masked (numpy's
`MaskedArray.mean`). -/
def mmean1 (col : List MCell) : MCell :=
  let vals := (col.filter fun c => !c.2).map Prod.fst
  if vals.isEmpty then (0, true) else (vals.sum / vals.length, false)

/-- `np.mean(m, axis=0)` on a masked matrix (list of rows): one masked
mean per column. -/
def mmeanAxis0 (m : List (List MCell)) : List MCell :=
  (List.range (m.headD []).length).map fun j => mmean1 (m.map fun r => r.getD j (0, true))

/-- `Mx = (bx - cx)**2` at lag `frame` (msd.py lines 244-246):
`bx = xs_m[frame, :]` is the *single* row at index `frame`, broadcast
against `cx = xs_m[:-frame, :]`. -/
def lagMx (xs : List (List ℚ)) (frame : ℕ) : List (List MCell) :=
  let msk := maskEq0 xs
  let bx := msk.getD frame []
  let cx := msk.take (msk.length - frame)
  cx.map fun r => msq (msub bx r)

/-- `Mxa = np.mean(Mx, axis=0)` (msd.py line 248): the per-particle
masked mean over the time axis of the lag-`frame` squared
displacements the source computes. -/
def lagMxa (xs : List (List ℚ)) (frame : ℕ) : List MCell :=
  mmeanAxis0 (lagMx xs frame)

/-- The Python exceptions `vectorized_MMSD_calcs` can raise. -/
inductive PyErr where
  /-- `np.zeros((frames, total1-1))` with `total1 = 0`. -/
  | valueErrorNegDim : PyErr
  /-- `xs_m[frame, :]` with `frame` out of range (line 244). -/
  | indexErrorXs : PyErr
  /-- `ys_m[frame, :]` with `frame` out of range (line 253). -/
  | indexErrorYs : PyErr
  /-- `SM1x[frame, :] = ...` with `frame ≥ frames` (line 261). -/
  | indexErrorSM : PyErr
  /-- `SM1x[frame, :] = Mxa` (line 261) with `len(Mxa)` neither
  `total1 - 1` nor 1: numpy broadcasts a length-1 source row into a
  destination row of any width (including 0) without error, and any
  other length mismatch raises. -/
  | broadcastErr : PyErr
  /-- `dist = np.log(Mya+Mxa)` after zero loop iterations: the loop
  locals `Mxa`, `Mya` were never bound (line 264). -/
  | nameErrorMya : PyErr
  /-- `np.ma.mean(dist, axix=0)`: `mean()` does not accept the
  misspelled keyword argument `axix` (line 268). -/
  | typeErrorAxix : PyErr
deriving DecidableEq, Repr

/-- The loop `for frame in range(1, frame_m)` of msd.py lines 243-262
over the masked matrices, carrying the most recent `(Mxa, Mya)` pair
(the values the statements after the loop read).  Each iteration
computes `Mxa` and `Mya` and then performs the two row assignments
`SM1x[frame, :] = Mxa`, `SM1y[frame, :] = Mya`, which require
`frame < frames` and a source row that either has length exactly
`total1 - 1` or has length 1 (numpy's size-1 broadcast rule: a
shape-`(1,)` source assigns into a destination row of any width,
including 0, without error). -/
def mmsdLoop (xs ys : List (List MCell)) (frames t1m1 : ℕ) :
    ℕ → ℕ → Option (List MCell × List MCell) →
    Except PyErr (Option (List MCell × List MCell))
  | 0, _, last => .ok last
  | rem + 1, frame, _ =>
    if xs.length ≤ frame then .error .indexErrorXs
    else
      let bx := xs.getD frame []
      let cx := xs.take (xs.length - frame)
      let mxa := mmeanAxis0 (cx.map fun r => msq (msub bx r))
      if ys.length ≤ frame then .error .indexErrorYs
      else
        let byRow := ys.getD frame []
        let cy := ys.take (ys.length - frame)
        let mya := mmeanAxis0 (cy.map fun r => msq (msub byRow r))
        if frames ≤ frame then .error .indexErrorSM
        else if mxa.length ≠ t1m1 ∧ mxa.length ≠ 1 then .error .broadcastErr
        else if mya.length ≠ t1m1 ∧ mya.length ≠ 1 then .error .broadcastErr
        else mmsdLoop xs ys frames t1m1 rem (frame + 1) (some (mxa, mya))

/-- `vectorized_MMSD_calcs(frames, total1, xs_m, ys_m, x_m, y_m,
frame_m)` (msd.py lines 228-272).  `SM1x = np.zeros((frames,
total1-1))` fails for `total1 = 0` (negative dimension); the absolute
matrices `x_m`, `y_m` are masked (lines 237-238) but never read
afterwards.  After the loop, `dist = np.log(Mya+Mxa)` reads the loop
locals (a `NameError` when the loop body never ran), and
`geoM2xy = np.ma.mean(dist, axix=0)` (line 268) always raises
`TypeError` because of the misspelled keyword `axix`, so lines 269-272
are unreachable and no call returns normally. -/
def vectorized_MMSD_calcs (frames total1 : ℕ)
    (xs_m ys_m _x_m _y_m : List (List ℚ)) (frame_m : ℕ) : Except PyErr Unit :=
  if total1 = 0 then .error .valueErrorNegDim
  else
    let xs := maskEq0 xs_m
    let ys := maskEq0 ys_m
    match mmsdLoop xs ys frames (total1 - 1) (frame_m - 1) 1 none with
    | .error e => .error e
    | .ok none => .error .nameErrorMya
    | .ok (some _) => .error .typeErrorAxix

/-! ## Specification-side definitions

These definitions follow the wording of the specification (not of the
source); they exist only to be compared with the source-derived
definitions above. -/

/-- Spec comparison definition: the input is already dense, i.e. its
frames form a contiguous integer range with no gaps. -/
def isDense (data : List TRow) : Bool :=
  (data.zip data.tail).all fun pr => decide (pr.2.frame = pr.1.frame + 1)

/-- Spec comparison definition: the condition under which, according to
the claim, `fill` must fail fast — empty input, some consecutive pair
of frames equal or decreasing, or more than one particle id. -/
def specMustFail (data : List TRow) : Bool :=
  data.isEmpty
    || (data.zip data.tail).any (fun pr => decide (pr.2.frame ≤ pr.1.frame))
    || data.any (fun r => decide (r.tid ≠ (data.headD default).tid))

/-- Spec comparison definition: the span of particle `num` as the claim
defines it — its last observed *frame* minus its first observed frame. -/
def frameSpanOf (rows : List TRow) (num : ℕ) : ℤ :=
  let mine := rows.filter fun r => decide (r.tid = (num : ℤ))
  maxFrame mine - minFrame mine

/-- Spec comparison definition: the per-particle mean squared
x-displacement at lag `τ` as the claim states it — the masked
arithmetic mean over valid start frames `t` of
`(pos[t+τ] - pos[t])²`. -/
def specLagMSDx (xs : List (List ℚ)) (τ p : ℕ) : MCell :=
  let ts := (List.range (xs.length - τ)).filter fun t =>
    decide ((xs.getD t []).getD p 0 ≠ 0) && decide ((xs.getD (t + τ) []).getD p 0 ≠ 0)
  if ts.isEmpty then (0, true)
  else ((ts.map fun t =>
          ((xs.getD (t + τ) []).getD p 0 - (xs.getD t []).getD p 0) ^ 2).sum / ts.length,
        false)

/-- Spec comparison definition: the hand-computed masked mean of the
claim — at lag `τ` and particle `p`, average the squared differences
the code forms (fixed row `τ` minus row `t`) over exactly those start
frames `t` whose two referenced cells are both nonzero; if no such `t`
exists the result is masked.  Zero-valued cells contribute to neither
the sum nor the count. -/
def specMaskedLagMean (xs : List (List ℚ)) (τ p : ℕ) : MCell :=
  let S := (List.range (xs.length - τ)).filter fun t =>
    decide ((xs.getD t []).getD p 0 ≠ 0) && decide ((xs.getD τ []).getD p 0 ≠ 0)
  if S.isEmpty then (0, true)
  else ((S.map fun t =>
          ((xs.getD τ []).getD p 0 - (xs.getD t []).getD p 0) ^ 2).sum / S.length,
        false)

/-- The ids of the particles dropped by the assembly loop. -/
def droppedCount (rows : List TRow) (cut : ℕ) : ℕ :=
  ((idList (maxId rows).toNat).filter fun n => !keeps rows cut n).length

/-- The ids of the particles that survive the assembly loop, in
ascending (global id) order. -/
def keptIds (rows : List TRow) (cut : ℕ) : List ℕ :=
  (idList (maxId rows).toNat).filter (keeps rows cut)

/-- Contiguity of a particle's rows (a precondition of `MSD_iteration`
stated by the spec): its row indices form a consecutive block. -/
def Contig (rows : List TRow) (num : ℕ) : Prop :=
  rowIdxs rows num = List.range' (min1 rows num) (rowIdxs rows num).length

/-! ## State-passing renditions of `fillin2` and `vectorized_MMSD_calcs`

For the frame/effect claim the two functions are embedded once more as
explicit state transformers: the state holds the caller's input
array(s), and every assignment statement of the source updates the
state component (or the local) it targets.  `fillin2` writes only the
freshly allocated `filledin` (lines 65-68 and 84-85);
`vectorized_MMSD_calcs` rebinds its parameter names to fresh masked
copies (`ma.masked_equal` copies, lines 234-238) and writes only the
freshly allocated `SM1x`/`SM1y` (lines 261-262). -/

/-- The state of a `fillin2` call: the caller's array `data` and the
locally allocated `filledin`. -/
structure FillSt where
  data : List TRow
  filledin : List TRow
deriving DecidableEq, Repr

/-- The loop of msd.py lines 75-86 as a state transformer: each
iteration reads `s.data` and appends the produced row to
`s.filledin`; no statement of the loop body assigns to `data`. -/
def fillLoopSt (shape1 : ℤ) : ℕ → ℕ → ℕ → FillSt → FillSt
  | 0, _, _, s => s
  | rem + 1, num, new, s =>
    let target : ℤ := shape1 + num
    let cand := s.data.getD (num - new - 1) default
    let new1 := if target = cand.frame then new
      else if target < cand.frame then new + 1
      else new
    let src := s.data.getD (num - new1 - 1) default
    fillLoopSt shape1 rem (num + 1) new1
      { data := s.data
        filledin := s.filledin ++ [{ tid := src.tid, frame := target, x := src.x,
                                     y := src.y, z := src.z }] }

/-- `fillin2` as a state transformer over `FillSt`. -/
def fillRun (data : List TRow) : FillSt :=
  let shape1 := minFrame data
  let newshap := (maxFrame data + 1 - shape1).toNat
  let d0 := data.headD default
  fillLoopSt shape1 (newshap - 1) 1 0
    { data := data, filledin := [{ d0 with frame := shape1 }] }

/-- The state of a `vectorized_MMSD_calcs` call: the caller's four
position matrices. -/
structure MMSDSt where
  xs_m : List (List ℚ)
  ys_m : List (List ℚ)
  x_m : List (List ℚ)
  y_m : List (List ℚ)
deriving DecidableEq, Repr

/-- The loop of msd.py lines 243-262 as a state transformer: it reads
the masked local copies `xs`/`ys` and writes only the local
accumulators, so the state passes through every iteration.  The row
assignments follow numpy's size-1 broadcast rule, as in `mmsdLoop`. -/
def mmsdLoopSt (xs ys : List (List MCell)) (frames t1m1 : ℕ) :
    ℕ → ℕ → Option (List MCell × List MCell) → MMSDSt →
    MMSDSt × Except PyErr (Option (List MCell × List MCell))
  | 0, _, last, s => (s, .ok last)
  | rem + 1, frame, _, s =>
    if xs.length ≤ frame then (s, .error .indexErrorXs)
    else
      let bx := xs.getD frame []
      let cx := xs.take (xs.length - frame)
      let mxa := mmeanAxis0 (cx.map fun r => msq (msub bx r))
      if ys.length ≤ frame then (s, .error .indexErrorYs)
      else
        let byRow := ys.getD frame []
        let cy := ys.take (ys.length - frame)
        let mya := mmeanAxis0 (cy.map fun r => msq (msub byRow r))
        if frames ≤ frame then (s, .error .indexErrorSM)
        else if mxa.length ≠ t1m1 ∧ mxa.length ≠ 1 then (s, .error .broadcastErr)
        else if mya.length ≠ t1m1 ∧ mya.length ≠ 1 then (s, .error .broadcastErr)
        else mmsdLoopSt xs ys frames t1m1 rem (frame + 1) (some (mxa, mya)) s

/-- `vectorized_MMSD_calcs` as a state transformer over `MMSDSt`. -/
def mmsdRun (frames total1 : ℕ) (st : MMSDSt) (frame_m : ℕ) :
    MMSDSt × Except PyErr Unit :=
  if total1 = 0 then (st, .error .valueErrorNegDim)
  else
    let xs := maskEq0 st.xs_m
    let ys := maskEq0 st.ys_m
    match mmsdLoopSt xs ys frames (total1 - 1) (frame_m - 1) 1 none st with
    | (s, .error e) => (s, .error e)
    | (s, .ok none) => (s, .error .nameErrorMya)
    | (s, .ok (some _)) => (s, .error .typeErrorAxix)

/-! ## Concrete inputs used by the witnesses and counterexamples -/

/-- A dense trajectory (frames 0,1,2 with no gaps). -/
def exDense : List TRow := [⟨1, 0, 10, 0, 0⟩, ⟨1, 1, 20, 0, 0⟩, ⟨1, 2, 30, 0, 0⟩]

/-- Two rows with equal consecutive frames and two distinct particle
ids. -/
def exEqualFrames : List TRow := [⟨1, 2, 0, 0, 0⟩, ⟨2, 2, 0, 0, 0⟩]

/-- One particle observed at frames 0 and 5 only: frame span 5, but
just two rows. -/
def exSpan : List TRow := [⟨1, 0, 1, 1, 0⟩, ⟨1, 5, 2, 2, 0⟩]

/-- A particle whose three rows occupy the consecutive row indices
0, 1, 2. -/
def exContig : List TRow := [⟨1, 0, 1, 1, 0⟩, ⟨1, 2, 2, 2, 0⟩, ⟨1, 4, 3, 3, 0⟩]

/-- Two particles: particle 1 with two rows (kept at cutoff 1),
particle 2 with one row (dropped). -/
def exRows : List TRow := [⟨1, 0, 3, 4, 0⟩, ⟨1, 1, 5, 6, 0⟩, ⟨2, 0, 7, 8, 0⟩]

/-- The value of `msdCore exRows 1`. -/
def exOut : MSDOut :=
  { total1 := 1, xs_m := [[3, 3]], ys_m := [[4, 4]], x_m := [[3, 3]], y_m := [[4, 4]] }

/-- A sparse trajectory with frames 3 and 6. -/
def exSparse : List TRow := [⟨1, 3, 1, 1, 0⟩, ⟨1, 6, 2, 2, 0⟩]

/-- A one-particle relative position matrix with positions 1, 2, 4 at
frames 0, 1, 2. -/
def exC1 : List (List ℚ) := [[1], [2], [4]]

/-- A 4-frame, 2-particle position matrix with sentinel zeros at
(frame 1, particle 1) and (frame 2, particle 0). -/
def exM : List (List ℚ) := [[1, 1], [2, 0], [0, 3], [4, 5]]

/-- A 2-frame, 1-particle position matrix. -/
def exMat23 : List (List ℚ) := [[2], [3]]

/-- A second 2-frame, 1-particle position matrix. -/
def exMat12 : List (List ℚ) := [[1], [2]]

/-- A 2-frame, 2-particle position matrix. -/
def exMat2c : List (List ℚ) := [[1, 2], [3, 4]]

/-- A second 2-frame, 2-particle position matrix. -/
def exMat2d : List (List ℚ) := [[5, 6], [7, 8]]

end Msd

namespace Msd

/-! ## Helper lemmas -/

theorem fillAux_length (data : List TRow) (shape1 : ℤ) :
    ∀ (rem num new : ℕ), (fillAux data shape1 rem num new).length = rem := by
  intro rem
  induction rem with
  | zero => intro num new; rfl
  | succ n ih =>
    intro num new
    simp only [fillAux, List.length_cons]
    rw [ih]

theorem fillAux_frames (data : List TRow) (shape1 : ℤ) :
    ∀ (rem num new : ℕ),
      (fillAux data shape1 rem num new).map TRow.frame
        = (List.range' num rem).map (fun (k : ℕ) => shape1 + (k : ℤ)) := by
  intro rem
  induction rem with
  | zero => intro num new; rfl
  | succ n ih =>
    intro num new
    have hr : List.range' num (n + 1) = num :: List.range' (num + 1) n := rfl
    simp only [fillAux, List.map_cons, hr]
    rw [ih]

theorem foldl_min_le_foldl_max (rs : List TRow) :
    ∀ (a b : ℤ), a ≤ b →
      rs.foldl (fun m s => min m s.frame) a ≤ rs.foldl (fun m s => max m s.frame) b := by
  induction rs with
  | nil => intro a b h; exact h
  | cons r t ih =>
    intro a b h
    exact ih _ _ (le_trans (min_le_left _ _) (le_trans h (le_max_left _ _)))

theorem minFrame_le_maxFrame (data : List TRow) (h : data ≠ []) :
    minFrame data ≤ maxFrame data := by
  cases data with
  | nil => exact absurd rfl h
  | cons r t => exact foldl_min_le_foldl_max t _ _ le_rfl

theorem zipTailAll_iff (p : TRow → TRow → Bool) :
    ∀ l : List TRow,
      (((l.zip l.tail).all fun pr => p pr.1 pr.2) = true ↔
        ∀ i, i + 1 < l.length → p (l.getD i default) (l.getD (i + 1) default) = true) := by
  intro l
  induction l with
  | nil => simp
  | cons a t ih =>
    cases t with
    | nil => simp
    | cons b t2 =>
      simp only [List.tail_cons, List.zip_cons_cons, List.all_cons, Bool.and_eq_true]
      constructor
      · rintro ⟨hab, hrest⟩ i hi
        cases i with
        | zero => simpa using hab
        | succ j =>
          have hj : j + 1 < (b :: t2).length := by
            simp only [List.length_cons] at hi ⊢
            omega
          simpa using (ih.mp hrest) j hj
      · intro hall
        refine ⟨?_, ih.mpr ?_⟩
        · simpa using hall 0 (by simp)
        · intro j hj
          have hj2 : (j + 1) + 1 < (a :: b :: t2).length := by
            simp only [List.length_cons] at hj ⊢
            omega
          simpa using hall (j + 1) hj2

theorem fillinValid_true_iff (data : List TRow) :
    fillinValid data = true ↔
      data ≠ [] ∧ ∀ i, i + 1 < data.length →
        (data.getD i default).frame ≤ (data.getD (i + 1) default).frame := by
  unfold fillinValid
  rw [Bool.and_eq_true]
  rw [zipTailAll_iff (fun a b => decide (a.frame ≤ b.frame)) data]
  constructor
  · rintro ⟨h1, h2⟩
    refine ⟨by simpa using h1, fun i hi => by simpa using h2 i hi⟩
  · rintro ⟨h1, h2⟩
    refine ⟨by simpa using h1, fun i hi => by simpa using h2 i hi⟩

theorem fillLoopSt_data (shape1 : ℤ) :
    ∀ (rem num new : ℕ) (s : FillSt), (fillLoopSt shape1 rem num new s).data = s.data := by
  intro rem
  induction rem with
  | zero => intro num new s; rfl
  | succ n ih =>
    intro num new s
    simp only [fillLoopSt]
    exact ih _ _ _

theorem mmsdLoopSt_fst (xs ys : List (List MCell)) (frames t1m1 : ℕ) :
    ∀ (rem frame : ℕ) (last : Option (List MCell × List MCell)) (s : MMSDSt),
      (mmsdLoopSt xs ys frames t1m1 rem frame last s).1 = s := by
  intro rem
  induction rem with
  | zero => intro frame last s; rfl
  | succ n ih =>
    intro frame last s
    simp only [mmsdLoopSt]
    repeat' split
    any_goals rfl
    exact ih _ _ _

theorem set_append_len {α : Type} (l1 l2 : List α) (v : α) :
    (l1 ++ l2).set l1.length v = l1 ++ l2.set 0 v := by
  induction l1 with
  | nil => simp
  | cons a t ih => simp [List.set, ih]

theorem idList_eq_range' (n : ℕ) : idList n = List.range' 1 n := by
  unfold idList
  induction n with
  | zero => rfl
  | succ k ih =>
    rw [List.range_succ, List.map_append, ih]
    have h2 : List.range' 1 (k + 1) = List.range' 1 k ++ [1 + k] := by
      simpa using @List.range'_concat 1 1 k
    rw [h2]
    simp [Nat.add_comm]

theorem scatterLoop_go (rows : List TRow) (cut : ℕ) (colOf : List TRow → List ℚ)
    (zc : List ℚ) :
    ∀ (rem num nones : ℕ) (done : List (List ℚ)) (pad : ℕ),
      done.length = num - 1 - nones → nones + 1 ≤ num →
      ((List.range' num rem).filter (keeps rows cut)).length ≤ pad →
      scatterLoop rows cut colOf rem num nones (done ++ List.replicate pad zc)
        = (nones + ((List.range' num rem).filter (fun n => !keeps rows cut n)).length,
           done
             ++ ((List.range' num rem).filter (keeps rows cut)).map
                  (fun n => colOf (fillin2 (sliceFor rows n)))
             ++ List.replicate
                  (pad - ((List.range' num rem).filter (keeps rows cut)).length) zc) := by
  intro rem
  induction rem with
  | zero =>
    intro num nones done pad h1 h2 h3
    simp [scatterLoop]
  | succ n ih =>
    intro num nones done pad h1 h2 h3
    have hr : List.range' num (n + 1) = num :: List.range' (num + 1) n := rfl
    rw [hr] at h3 ⊢
    by_cases hk : keeps rows cut num = true
    · have hfl : (num :: List.range' (num + 1) n).filter (keeps rows cut)
          = num :: (List.range' (num + 1) n).filter (keeps rows cut) := by
        simp [List.filter_cons, hk]
      have hfn : (num :: List.range' (num + 1) n).filter (fun k => !keeps rows cut k)
          = (List.range' (num + 1) n).filter (fun k => !keeps rows cut k) := by
        simp [List.filter_cons, hk]
      rw [hfl] at h3
      simp only [List.length_cons] at h3
      obtain ⟨pad1, rfl⟩ : ∃ p1, pad = p1 + 1 := ⟨pad - 1, by omega⟩
      have hidx : num - nones - 1 = done.length := by omega
      simp only [scatterLoop, hk, if_true]
      rw [hidx, show List.replicate (pad1 + 1) zc = zc :: List.replicate pad1 zc from rfl,
        set_append_len]
      rw [show (zc :: List.replicate pad1 zc).set 0 (colOf (fillin2 (sliceFor rows num)))
          = colOf (fillin2 (sliceFor rows num)) :: List.replicate pad1 zc from rfl]
      rw [show done ++ colOf (fillin2 (sliceFor rows num)) :: List.replicate pad1 zc
          = (done ++ [colOf (fillin2 (sliceFor rows num))]) ++ List.replicate pad1 zc by simp]
      rw [ih (num + 1) nones (done ++ [colOf (fillin2 (sliceFor rows num))]) pad1
        (by simp only [List.length_append, List.length_cons, List.length_nil]; omega)
        (by omega) (by omega)]
      rw [hfl, hfn]
      simp only [List.map_cons, List.length_cons, Prod.mk.injEq]
      constructor
      · trivial
      · simp only [List.append_assoc, List.cons_append, List.nil_append,
          Nat.succ_sub_succ]
    · have hk2 : keeps rows cut num = false := by
        cases hkk : keeps rows cut num
        · rfl
        · exact absurd hkk hk
      have hfl : (num :: List.range' (num + 1) n).filter (keeps rows cut)
          = (List.range' (num + 1) n).filter (keeps rows cut) := by
        simp [List.filter_cons, hk2]
      have hfn : (num :: List.range' (num + 1) n).filter (fun k => !keeps rows cut k)
          = num :: (List.range' (num + 1) n).filter (fun k => !keeps rows cut k) := by
        simp [List.filter_cons, hk2]
      rw [hfl] at h3
      simp only [scatterLoop, hk2, Bool.false_eq_true, if_false]
      rw [ih (num + 1) (nones + 1) done pad (by omega) (by omega) h3]
      rw [hfl, hfn]
      simp only [List.length_cons, Prod.mk.injEq]
      constructor
      · omega
      · trivial

theorem getD_map_of_lt {α β : Type} (f : α → β) (l : List α) (dB : β) (dA : α) :
    ∀ n, n < l.length → (l.map f).getD n dB = f (l.getD n dA) := by
  induction l with
  | nil => intro n h; simp at h
  | cons a t ih =>
    intro n h
    cases n with
    | zero => rfl
    | succ j =>
      simp only [List.map_cons, List.getD_cons_succ]
      exact ih j (by simpa using h)

theorem getD_zipWith_of_lt {α β γ : Type} (f : α → β → γ) (dA : α) (dB : β) (dC : γ) :
    ∀ (a : List α) (b : List β) (n : ℕ), n < a.length → n < b.length →
      (List.zipWith f a b).getD n dC = f (a.getD n dA) (b.getD n dB) := by
  intro a
  induction a with
  | nil => intro b n h _; simp at h
  | cons x t ih =>
    intro b n ha hb
    cases b with
    | nil => simp at hb
    | cons y u =>
      cases n with
      | zero => rfl
      | succ j =>
        simp only [List.zipWith_cons_cons, List.getD_cons_succ]
        exact ih u j (by simpa using ha) (by simpa using hb)

theorem getD_mem_of_lt {α : Type} (l : List α) (d : α) :
    ∀ n, n < l.length → l.getD n d ∈ l := by
  induction l with
  | nil => intro n h; simp at h
  | cons a t ih =>
    intro n h
    cases n with
    | zero => simp
    | succ j =>
      simp only [List.getD_cons_succ]
      exact List.mem_cons_of_mem _ (ih j (by simpa using h))

theorem headD_mem_of_ne {α : Type} (l : List α) (d : α) (h : l ≠ []) : l.headD d ∈ l := by
  cases l with
  | nil => exact absurd rfl h
  | cons a t => simp

theorem map_take_eq_range_map {α β : Type} (g : α → β) (l : List α) (d : α) :
    ∀ k, k ≤ l.length →
      (l.take k).map g = (List.range k).map fun t => g (l.getD t d) := by
  induction l with
  | nil =>
    intro k hk
    have h0 : k = 0 := by simpa using hk
    subst h0
    simp
  | cons a tl ih =>
    intro k hk
    cases k with
    | zero => simp
    | succ j =>
      rw [List.take_succ_cons, List.map_cons, List.range_succ_eq_map j, List.map_cons,
        List.map_map]
      simp only [Function.comp_def, Nat.succ_eq_add_one, List.getD_cons_succ,
        List.getD_cons_zero]
      rw [ih j (by simpa using hk)]

theorem isEmpty_map_eq {α β : Type} (f : α → β) (l : List α) :
    (l.map f).isEmpty = l.isEmpty := by
  cases l <;> rfl

theorem range_getD_eq (n p : ℕ) (h : p < n) : (List.range n).getD p 0 = p := by
  rw [List.getD_eq_getElem?_getD, List.getElem?_range h]
  rfl

theorem mmeanAxis0_getD (m : List (List MCell)) (P p : ℕ) (hm : m ≠ [])
    (hrect : ∀ r ∈ m, r.length = P) (hp : p < P) :
    (mmeanAxis0 m).getD p (0, true) = mmean1 (m.map fun r => r.getD p (0, true)) := by
  unfold mmeanAxis0
  have hhead : (m.headD []).length = P := hrect _ (headD_mem_of_ne m [] hm)
  rw [hhead]
  rw [getD_map_of_lt _ _ _ 0 p (by simpa using hp)]
  rw [range_getD_eq P p hp]

theorem mmeanAxis0_length (m : List (List MCell)) :
    (mmeanAxis0 m).length = (m.headD []).length := by
  simp [mmeanAxis0]

theorem mmsdLoop_first_broadcast (xs ys : List (List MCell)) (frames t1m1 rem : ℕ)
    (h2 : 2 ≤ xs.length) (h2y : 2 ≤ ys.length) (hfr : 2 ≤ frames)
    (hlen : (mmeanAxis0 ((xs.take (xs.length - 1)).map
        (fun r => msq (msub (xs.getD 1 []) r)))).length ≠ t1m1)
    (hlen1 : (mmeanAxis0 ((xs.take (xs.length - 1)).map
        (fun r => msq (msub (xs.getD 1 []) r)))).length ≠ 1) :
    mmsdLoop xs ys frames t1m1 (rem + 1) 1 none = .error .broadcastErr := by
  simp only [mmsdLoop]
  rw [if_neg (by omega : ¬ (xs.length ≤ 1))]
  rw [if_neg (by omega : ¬ (ys.length ≤ 1))]
  rw [if_neg (by omega : ¬ (frames ≤ 1))]
  rw [if_pos ⟨hlen, hlen1⟩]

/-! ## Claim theorems -/

/-- C1: the claim states that the engine computes the lag-τ squared
displacements as `(pos[t+τ] − pos[t])²` averaged over start frames.
On the matrix with positions 1, 2, 4 the source's per-lag value at
lag 1 (`bx = xs_m[1, :]` minus `cx = xs_m[:-1, :]`, squared, averaged)
is 1/2, whereas the claimed formula gives 5/2: the code subtracts the
*fixed* row τ, not the row `t + τ`. -/
theorem mmsd_lag_formula_mismatch :
    lagMxa exC1 1 = [((1 : ℚ)/2, false)]
  ∧ specLagMSDx exC1 1 0 = ((5 : ℚ)/2, false)
  ∧ ((1 : ℚ)/2, false) ≠ (((5 : ℚ)/2, false) : MCell) := by
  refine ⟨?_, ?_, ?_⟩
  · simp [lagMxa, lagMx, maskEq0, maskEq0Row, msub, msq, mmeanAxis0, mmean1, exC1,
      List.filter, List.range_succ]
    norm_num
  · simp [specLagMSDx, exC1, List.filter, List.range_succ]
    norm_num
  · intro hcon
    have : (1 : ℚ)/2 = (5 : ℚ)/2 := congrArg Prod.fst hcon
    norm_num at this

/-- C2: `fillin2` applied to an already-dense trajectory (frames
0, 1, 2, satisfying all of its assertions) does not return its input:
the x column of the output is `[10, 10, 20]` while the input's is
`[10, 20, 30]` — the carry cursor lags one row behind on consecutive
frames. -/
theorem fillin2_dense_not_identity :
    fillinValid exDense = true ∧ isDense exDense = true
  ∧ fillin2 exDense
      = [⟨1, 0, 10, 0, 0⟩, ⟨1, 1, 10, 0, 0⟩, ⟨1, 2, 20, 0, 0⟩]
  ∧ fillin2 exDense ≠ exDense := by decide

/-- C3 counterexample: the claim says `fill` fails fast exactly on
empty input, an equal-or-decreasing consecutive frame pair, or more
than one particle id.  `exEqualFrames` has an equal consecutive frame
pair *and* two distinct particle ids, yet the source's assertions
(`fillinValid`) accept it. -/
theorem fillin2_validation_differs_from_claim :
    specMustFail exEqualFrames = true ∧ fillinValid exEqualFrames = true := by decide

/-- C4 counterexample: the claim says a particle is allocated a column
iff its last observed *frame* minus its first observed frame is at
least the cutoff.  Particle 1 of `exSpan` has frame span 5 ≥ cutoff 3,
yet the assembly allocates no column for it (`total1 = 0`, all output
matrices empty): line 209 compares row indices, not frames. -/
theorem msd_drops_particle_with_long_span :
    (3 : ℤ) ≤ frameSpanOf exSpan 1
  ∧ msdCore exSpan 3 = some { total1 := 0, xs_m := [], ys_m := [], x_m := [], y_m := [] } := by
  decide

/-- C5: whenever the assembly succeeds, the surviving count plus the
dropped count equals the number of input particles
(`total = int(max(particles))`), every output matrix has exactly
`total1` columns (no trailing unused columns), and column `i` of each
matrix is the scattered trajectory of the `i`-th surviving particle in
ascending global-id order. -/
theorem msd_iteration_columns (rows : List TRow) (cut : ℕ) (out : MSDOut)
    (h : msdCore rows cut = some out) :
    out.total1 + droppedCount rows cut = (maxId rows).toNat
  ∧ out.xs_m.length = out.total1
  ∧ out.ys_m.length = out.total1
  ∧ out.x_m.length = out.total1
  ∧ out.y_m.length = out.total1
  ∧ out.xs_m = (keptIds rows cut).map
      (fun n => relColOf (maxFrame rows).toNat TRow.x (fillin2 (sliceFor rows n)))
  ∧ out.ys_m = (keptIds rows cut).map
      (fun n => relColOf (maxFrame rows).toNat TRow.y (fillin2 (sliceFor rows n)))
  ∧ out.x_m = (keptIds rows cut).map
      (fun n => absColOf (maxFrame rows).toNat TRow.x (fillin2 (sliceFor rows n)))
  ∧ out.y_m = (keptIds rows cut).map
      (fun n => absColOf (maxFrame rows).toNat TRow.y (fillin2 (sliceFor rows n))) := by
  simp only [msdCore] at h
  split at h
  case isFalse => exact Option.noConfusion h
  case isTrue hgate =>
  rw [Option.some.injEq] at h
  subst h
  have hgo : ∀ colOf : List TRow → List ℚ,
      scatterLoop rows cut colOf (maxId rows).toNat 1 0
          (List.replicate ((maxId rows).toNat + 1)
            (List.replicate ((maxFrame rows).toNat + 1) (0 : ℚ)))
        = (((List.range' 1 (maxId rows).toNat).filter
              (fun n => !keeps rows cut n)).length,
           ((List.range' 1 (maxId rows).toNat).filter (keeps rows cut)).map
                (fun n => colOf (fillin2 (sliceFor rows n)))
             ++ List.replicate
                  ((maxId rows).toNat + 1
                    - ((List.range' 1 (maxId rows).toNat).filter
                        (keeps rows cut)).length)
                  (List.replicate ((maxFrame rows).toNat + 1) (0 : ℚ))) := by
    intro colOf
    have hfil := List.length_filter_le (keeps rows cut)
      (List.range' 1 (maxId rows).toNat)
    have hlr : (List.range' 1 (maxId rows).toNat).length = (maxId rows).toNat := by
      simp
    have := scatterLoop_go rows cut colOf
      (List.replicate ((maxFrame rows).toNat + 1) (0 : ℚ))
      (maxId rows).toNat 1 0 [] ((maxId rows).toNat + 1)
      (by simp) (by omega) (by omega)
    simpa using this
  have hpart := @List.length_eq_length_filter_add _
    (List.range' 1 (maxId rows).toNat) (keeps rows cut)
  have hlr : (List.range' 1 (maxId rows).toNat).length = (maxId rows).toNat := by
    simp
  have hkid : keptIds rows cut
      = (List.range' 1 (maxId rows).toNat).filter (keeps rows cut) := by
    unfold keptIds
    rw [idList_eq_range']
  have hdc : droppedCount rows cut
      = ((List.range' 1 (maxId rows).toNat).filter
          (fun n => !keeps rows cut n)).length := by
    unfold droppedCount
    rw [idList_eq_range']
  have hKN : ((List.range' 1 (maxId rows).toNat).filter (keeps rows cut)).length
      + ((List.range' 1 (maxId rows).toNat).filter
          (fun n => !keeps rows cut n)).length = (maxId rows).toNat := by
    omega
  have htk : ∀ colOf : List TRow → List ℚ,
      (((List.range' 1 (maxId rows).toNat).filter (keeps rows cut)).map
            (fun n => colOf (fillin2 (sliceFor rows n)))
          ++ List.replicate
              ((maxId rows).toNat + 1
                - ((List.range' 1 (maxId rows).toNat).filter
                    (keeps rows cut)).length)
              (List.replicate ((maxFrame rows).toNat + 1) (0 : ℚ))).take
          ((maxId rows).toNat
            - ((List.range' 1 (maxId rows).toNat).filter
                (fun n => !keeps rows cut n)).length)
        = ((List.range' 1 (maxId rows).toNat).filter (keeps rows cut)).map
            (fun n => colOf (fillin2 (sliceFor rows n))) := by
    intro colOf
    apply List.take_left'
    rw [List.length_map]
    omega
  simp only [hgo]
  refine ⟨?_, ?_, ?_, ?_, ?_, ?_, ?_, ?_, ?_⟩
  · simp only [hdc]
    omega
  · rw [htk, List.length_map]
    omega
  · rw [htk, List.length_map]
    omega
  · rw [htk, List.length_map]
    omega
  · rw [htk, List.length_map]
    omega
  · rw [htk, hkid]
  · rw [htk, hkid]
  · rw [htk, hkid]
  · rw [htk, hkid]

/-- Witness for C5 at a two-particle dataset in which particle 2 is
dropped by the cutoff. -/
theorem msd_iteration_columns_witness :
    msdCore exRows 1 = some exOut
  ∧ (exOut.total1 + droppedCount exRows 1 = (maxId exRows).toNat
      ∧ exOut.xs_m.length = exOut.total1
      ∧ exOut.ys_m.length = exOut.total1
      ∧ exOut.x_m.length = exOut.total1
      ∧ exOut.y_m.length = exOut.total1
      ∧ exOut.xs_m = (keptIds exRows 1).map
          (fun n => relColOf (maxFrame exRows).toNat TRow.x (fillin2 (sliceFor exRows n)))
      ∧ exOut.ys_m = (keptIds exRows 1).map
          (fun n => relColOf (maxFrame exRows).toNat TRow.y (fillin2 (sliceFor exRows n)))
      ∧ exOut.x_m = (keptIds exRows 1).map
          (fun n => absColOf (maxFrame exRows).toNat TRow.x (fillin2 (sliceFor exRows n)))
      ∧ exOut.y_m = (keptIds exRows 1).map
          (fun n => absColOf (maxFrame exRows).toNat TRow.y (fillin2 (sliceFor exRows n)))) :=
  ⟨by decide, msd_iteration_columns exRows 1 exOut (by decide)⟩

/-- C6: for every input accepted by the `fillin2` assertions, the
output has exactly `max_frame − min_frame + 1` rows and its frame
column is exactly the contiguous ascending range
`[min_frame, max_frame]`. -/
theorem fillin2_frame_column (data : List TRow) (h : fillinValid data = true) :
    (fillin2 data).length = (maxFrame data - minFrame data).toNat + 1
  ∧ (fillin2 data).map TRow.frame
      = (List.range ((maxFrame data - minFrame data).toNat + 1)).map
          (fun (k : ℕ) => minFrame data + (k : ℤ)) := by
  have hne : data ≠ [] := by
    intro he
    subst he
    simp [fillinValid] at h
  have hmm := minFrame_le_maxFrame data hne
  have hsub : (maxFrame data + 1 - minFrame data).toNat - 1
      = (maxFrame data - minFrame data).toNat := by omega
  constructor
  · simp only [fillin2, List.length_cons, fillAux_length, hsub]
  · simp only [fillin2, List.map_cons, fillAux_frames, hsub]
    rw [List.range_eq_range']
    have hr : List.range' 0 ((maxFrame data - minFrame data).toNat + 1)
        = 0 :: List.range' 1 ((maxFrame data - minFrame data).toNat) := rfl
    rw [hr, List.map_cons]
    simp

/-- Witness for C6 at the sparse trajectory with frames 3 and 6. -/
theorem fillin2_frame_column_witness :
    fillinValid exSparse = true
  ∧ ((fillin2 exSparse).length = (maxFrame exSparse - minFrame exSparse).toNat + 1
      ∧ (fillin2 exSparse).map TRow.frame
          = (List.range ((maxFrame exSparse - minFrame exSparse).toNat + 1)).map
              (fun (k : ℕ) => minFrame exSparse + (k : ℤ))) :=
  ⟨by decide, fillin2_frame_column exSparse (by decide)⟩

/-- C3 amended: the `fillin2` assertions reject an input exactly when
it is empty or some consecutive frame pair strictly decreases; equal
consecutive frames and multiple particle ids are accepted (no check
exists for them). -/
theorem fillinValid_false_iff (data : List TRow) :
    fillinValid data = false ↔
      data = [] ∨ ∃ i, i + 1 < data.length ∧
        (data.getD (i + 1) default).frame < (data.getD i default).frame := by
  rw [Bool.eq_false_iff, Ne, fillinValid_true_iff]
  constructor
  · intro h
    rcases Classical.em (data = []) with hd | hd
    · exact Or.inl hd
    · have hna : ¬ ∀ i, i + 1 < data.length →
          (data.getD i default).frame ≤ (data.getD (i + 1) default).frame :=
        fun hall => h ⟨hd, hall⟩
      push_neg at hna
      obtain ⟨i, hi, hlt⟩ := hna
      exact Or.inr ⟨i, hi, hlt⟩
  · rintro (hd | ⟨i, hi, hlt⟩) ⟨hne, hall⟩
    · exact hne hd
    · exact absurd (hall i hi) (not_le.mpr hlt)

/-- C4 amended: the assembly allocates a column for a particle iff its
row-index span `max1 - min1` is at least the cutoff; when the
particle's rows are contiguous (the stated precondition) this equals
its observation count minus one — not its frame span. -/
theorem keeps_iff_obs_count (rows : List TRow) (cut num : ℕ)
    (hne : rowIdxs rows num ≠ []) (hc : Contig rows num) :
    keeps rows cut num = true ↔ cut + 1 ≤ (rowIdxs rows num).length := by
  have hlen : 0 < (rowIdxs rows num).length := List.length_pos.mpr hne
  obtain ⟨n, hn⟩ : ∃ n, (rowIdxs rows num).length = n + 1 :=
    ⟨(rowIdxs rows num).length - 1, by omega⟩
  have hmax : max1 rows num = min1 rows num + n := by
    unfold max1
    rw [hc, hn]
    have hcat : List.range' (min1 rows num) (n + 1)
        = List.range' (min1 rows num) n ++ [min1 rows num + n] := by
      simpa using @List.range'_concat 1 (min1 rows num) n
    rw [hcat]
    simp
  unfold keeps
  rw [hmax, hn]
  simp only [decide_eq_true_eq, Nat.add_sub_cancel_left]
  omega

/-- Witness for the amended C4 at a particle with three contiguous
rows and cutoff 2. -/
theorem keeps_iff_obs_count_witness :
    rowIdxs exContig 1 ≠ [] ∧ Contig exContig 1
  ∧ (keeps exContig 2 1 = true ↔ 2 + 1 ≤ (rowIdxs exContig 1).length) :=
  ⟨by decide, by unfold Contig; decide,
    keeps_iff_obs_count exContig 2 1 (by decide) (by unfold Contig; decide)⟩

/-- C9: neither `fillin2` nor `vectorized_MMSD_calcs` mutates its
inputs: in the state-passing embeddings, in which every assignment of
the source updates the state component it targets, the caller-visible
input arrays are returned unchanged by every call (`fillin2` writes
only the fresh `filledin`; `vectorized_MMSD_calcs` rebinds its
parameter names to fresh masked copies and writes only its fresh
accumulators). -/
theorem fill_compute_preserve_inputs (data : List TRow)
    (frames total1 : ℕ) (st : MMSDSt) (frame_m : ℕ) :
    (fillRun data).data = data ∧ (mmsdRun frames total1 st frame_m).1 = st := by
  constructor
  · unfold fillRun
    exact fillLoopSt_data _ _ _ _ _
  · by_cases h0 : total1 = 0
    · simp [mmsdRun, h0]
    · simp only [mmsdRun, if_neg h0]
      have h1 := mmsdLoopSt_fst (maskEq0 st.xs_m) (maskEq0 st.ys_m) frames
        (total1 - 1) (frame_m - 1) 1 none st
      rcases hE : mmsdLoopSt (maskEq0 st.xs_m) (maskEq0 st.ys_m) frames
          (total1 - 1) (frame_m - 1) 1 none st with ⟨s1, r⟩
      rw [hE] at h1
      rcases r with e | o
      · exact h1
      · rcases o with _ | v
        · exact h1
        · exact h1

/-- C8: every zero-valued cell of the position matrix is excluded from
the per-lag masked mean the engine computes (the only reduction any
execution performs before the function raises): the code's per-lag,
per-particle value equals a mean over exactly those start frames whose
two referenced cells are both nonzero, masked when no such frame
exists — zero cells contribute to neither the sum nor the count. -/
theorem mmsd_mean_excludes_zero_cells (xs : List (List ℚ)) (P τ p : ℕ)
    (hrect : ∀ r ∈ xs, r.length = P) (hτ : τ < xs.length) (hp : p < P) :
    (lagMxa xs τ).getD p (0, true) = specMaskedLagMean xs τ p := by
  have hτlen : (xs.getD τ []).length = P := hrect _ (getD_mem_of_lt xs [] τ hτ)
  have hpt : ∀ t, t < xs.length - τ →
      (msq (msub (maskEq0Row (xs.getD τ []))
          ((xs.map maskEq0Row).getD t []))).getD p (0, true)
        = (((xs.getD τ []).getD p 0 - (xs.getD t []).getD p 0) ^ 2,
           decide ((xs.getD τ []).getD p 0 = 0)
             || decide ((xs.getD t []).getD p 0 = 0)) := by
    intro t ht
    have htlt : t < xs.length := by omega
    rw [getD_map_of_lt maskEq0Row xs [] [] t htlt]
    have htlen : (xs.getD t []).length = P := hrect _ (getD_mem_of_lt xs [] t htlt)
    have hsub_len : (msub (maskEq0Row (xs.getD τ []))
        (maskEq0Row (xs.getD t []))).length = P := by
      simp only [msub, List.length_zipWith, maskEq0Row, List.length_map, htlen, hτlen,
        min_self]
    unfold msq
    rw [getD_map_of_lt (fun c : MCell => (c.1 ^ 2, c.2)) _ (0, true) (0, true) p
      (by rw [hsub_len]; exact hp)]
    unfold msub
    rw [getD_zipWith_of_lt _ (0, true) (0, true) (0, true) _ _ p
      (by simp only [maskEq0Row, List.length_map, hτlen]; exact hp)
      (by simp only [maskEq0Row, List.length_map, htlen]; exact hp)]
    unfold maskEq0Row
    rw [getD_map_of_lt (fun v : ℚ => (v, decide (v = 0))) _ (0, true) 0 p
      (by rw [hτlen]; exact hp)]
    rw [getD_map_of_lt (fun v : ℚ => (v, decide (v = 0))) _ (0, true) 0 p
      (by rw [htlen]; exact hp)]
  unfold lagMxa lagMx maskEq0
  simp only [List.length_map]
  rw [getD_map_of_lt maskEq0Row xs [] [] τ hτ]
  have hBrect : ∀ r ∈ ((xs.map maskEq0Row).take (xs.length - τ)).map
      (fun r => msq (msub (maskEq0Row (xs.getD τ [])) r)), r.length = P := by
    intro r hr
    obtain ⟨r0, hr0, rfl⟩ := List.mem_map.mp hr
    have hr0m : r0 ∈ xs.map maskEq0Row := List.take_subset _ _ hr0
    obtain ⟨orig, horig, rfl⟩ := List.mem_map.mp hr0m
    simp only [msq, List.length_map, msub, List.length_zipWith, maskEq0Row]
    rw [hτlen, hrect orig horig, min_self]
  have hBne : ((xs.map maskEq0Row).take (xs.length - τ)).map
      (fun r => msq (msub (maskEq0Row (xs.getD τ [])) r)) ≠ [] := by
    apply List.ne_nil_of_length_pos
    simp only [List.length_map, List.length_take]
    omega
  rw [mmeanAxis0_getD _ P p hBne hBrect hp]
  rw [List.map_map]
  rw [map_take_eq_range_map _ _ [] (xs.length - τ) (by simp only [List.length_map]; omega)]
  simp only [Function.comp_def]
  rw [List.map_congr_left (fun t ht => hpt t (List.mem_range.mp ht))]
  unfold mmean1 specMaskedLagMean
  rw [List.filter_map, List.map_map]
  have hfc : (List.range (xs.length - τ)).filter
        ((fun c : MCell => !c.2) ∘ fun t =>
          (((xs.getD τ []).getD p 0 - (xs.getD t []).getD p 0) ^ 2,
           decide ((xs.getD τ []).getD p 0 = 0)
             || decide ((xs.getD t []).getD p 0 = 0)))
      = (List.range (xs.length - τ)).filter fun t =>
          decide ((xs.getD t []).getD p 0 ≠ 0)
            && decide ((xs.getD τ []).getD p 0 ≠ 0) := by
    apply List.filter_congr
    intro t _
    simp only [Function.comp_def, decide_not, Bool.not_or]
    exact Bool.and_comm _ _
  rw [hfc]
  simp only [Function.comp_def, isEmpty_map_eq, List.length_map]

/-- Witness for C8 at the 4-frame, 2-particle matrix with a zero cell
in each column. -/
theorem mmsd_mean_excludes_zero_cells_witness :
    (∀ r ∈ exM, r.length = 2) ∧ 1 < exM.length ∧ 0 < 2
  ∧ (lagMxa exM 1).getD 0 (0, true) = specMaskedLagMean exM 1 0 :=
  ⟨by decide, by decide, by decide,
    mmsd_mean_excludes_zero_cells exM 2 1 0 (by decide) (by decide) (by decide)⟩

/-- C7: `vectorized_MMSD_calcs` never returns per-lag statistics — it
raises on every input.  With the `MSD_iteration` contract
(`total1` = column count): for a single surviving particle the
shape-`(1,)` per-lag rows broadcast silently into the zero-width
accumulator rows, the loop completes, and line 268 raises `TypeError`
because of the misspelled keyword `axix`; with two or more columns the
first per-lag row assignment already fails with a broadcast
`ValueError`. -/
theorem mmsd_calcs_always_raises :
    vectorized_MMSD_calcs 2 1 exMat23 exMat23 exMat23 exMat23 2
      = .error .typeErrorAxix
  ∧ vectorized_MMSD_calcs 2 2 exMat2d exMat2d exMat2d exMat2d 2
      = .error .broadcastErr :=
  ⟨rfl, rfl⟩

/-- C10 counterexample: the claim quantifies over every input with
`total1` equal to the matrices' column count and `frame_m ≥ 2`, but at
`total1 = 1` with single-column matrices the per-lag row assignment
does not fail — numpy broadcasts the shape-`(1,)` result row into the
shape-`(0,)` `SM1x` row, the loop completes, and the failure is
line 268's `TypeError` (misspelled keyword `axix`), not a
shape/broadcast error. -/
theorem mmsd_single_column_broadcasts :
    vectorized_MMSD_calcs 2 1 exMat12 exMat12 exMat12 exMat12 2
      = .error .typeErrorAxix
  ∧ (Except.error PyErr.typeErrorAxix : Except PyErr Unit)
      ≠ .error .broadcastErr :=
  ⟨rfl, by simp⟩

/-- C10 amended: `SM1x` and `SM1y` are allocated with `total1 - 1`
columns (msd.py lines 230-231) while each per-lag result row has as
many entries as the position matrices have columns, so whenever
`total1` equals the column count and there are at least two columns
(with at least two matrix rows, `frames ≥ 2` and `frame_m ≥ 2`), the
first per-lag row assignment `SM1x[frame, :] = Mxa` fails with a
broadcast error instead of returning statistics; a single-column
matrix escapes via numpy's size-1 broadcast rule and fails at line 268
instead. -/
theorem mmsd_row_assignment_shape_error
    (frames total1 frame_m : ℕ) (xs ys xa ya : List (List ℚ))
    (h1 : 2 ≤ total1) (hcols : ∀ r ∈ xs, r.length = total1)
    (hxs : 2 ≤ xs.length) (hys : 2 ≤ ys.length)
    (hfm : 2 ≤ frame_m) (hfr : 2 ≤ frames) :
    vectorized_MMSD_calcs frames total1 xs ys xa ya frame_m
      = .error .broadcastErr := by
  obtain ⟨r0, r1, rest, rfl⟩ : ∃ r0 r1 rest, xs = r0 :: r1 :: rest := by
    cases xs with
    | nil => simp at hxs
    | cons a t =>
      cases t with
      | nil => simp at hxs
      | cons b u => exact ⟨a, b, u, rfl⟩
  obtain ⟨m, rfl⟩ : ∃ m, frame_m = m + 2 := ⟨frame_m - 2, by omega⟩
  have h0 : total1 ≠ 0 := by omega
  have hr0 : r0.length = total1 := hcols r0 (by simp)
  have hr1 : r1.length = total1 := hcols r1 (by simp)
  have hlen0 : (mmeanAxis0 (((maskEq0 (r0 :: r1 :: rest)).take
      ((maskEq0 (r0 :: r1 :: rest)).length - 1)).map
        (fun r => msq (msub ((maskEq0 (r0 :: r1 :: rest)).getD 1 []) r)))).length
      = total1 := by
    simp only [maskEq0, List.map_cons, List.length_cons, Nat.add_sub_cancel,
      List.take_succ_cons, mmeanAxis0_length, List.headD_cons, msq, msub,
      List.length_map, List.length_zipWith, List.getD_cons_succ, List.getD_cons_zero,
      maskEq0Row, hr0, hr1, min_self]
  unfold vectorized_MMSD_calcs
  rw [if_neg h0]
  dsimp only
  rw [show m + 2 - 1 = m + 1 from rfl]
  rw [mmsdLoop_first_broadcast (maskEq0 (r0 :: r1 :: rest)) (maskEq0 ys) frames
    (total1 - 1) m (by simp [maskEq0]) (by simp [maskEq0]; omega) hfr
    (by rw [hlen0]; omega) (by rw [hlen0]; omega)]

/-- Witness for the amended C10 with `total1 = 2` equal to the
two-column matrices' width. -/
theorem mmsd_row_assignment_shape_error_witness :
    ((2 : ℕ) ≤ 2 ∧ (∀ r ∈ exMat2c, r.length = 2) ∧ 2 ≤ exMat2c.length
      ∧ 2 ≤ exMat2c.length ∧ 2 ≤ 2 ∧ 2 ≤ 2)
  ∧ vectorized_MMSD_calcs 2 2 exMat2c exMat2c exMat2c exMat2c 2
      = .error .broadcastErr :=
  ⟨⟨by decide, by decide, by decide, by decide, by decide, by decide⟩,
    mmsd_row_assignment_shape_error 2 2 2 exMat2c exMat2c exMat2c exMat2c
      (by decide) (by decide) (by decide) (by decide) (by decide) (by decide)⟩

end Msd


